import Mathlib

/-!
Verification of the ferret HTTP timing library: the `Result` phase-duration
logic (result.go), its String/JSON renderings, and the `RoundTrip` sealing
logic (ferret.go).

Timestamps are modelled as integer nanoseconds; the integer `0` plays the
role of Go's zero `time.Time` (the value `IsZero` reports, which the code
uses for "milestone never stamped").  `time.Time.Sub` returns a
`time.Duration` (an `int64` nanosecond count) and saturates at the Duration
bounds on overflow; `timeSub` reproduces that.  Go `error` values are
modelled by their message as `Option String`.
-/

namespace Ferret

/-- Go `time.Time.IsZero`.  A timestamp is an `Int` nanosecond count and
`0` is Go's zero (unset) `time.Time`; a Go `time.Duration` is likewise an
`Int` nanosecond count. -/
def Time.isZero (t : Int) : Bool := t == 0

/-- Go `maxDuration = 1<<63 - 1`, the largest `time.Duration`. -/
def maxDuration : Int := 9223372036854775807

/-- Go `minDuration = -1 << 63`, the smallest `time.Duration`. -/
def minDuration : Int := -9223372036854775808

/-- Go `time.Time.Sub`: the signed difference, saturated at the
`time.Duration` bounds when it overflows an `int64`. -/
def timeSub (t u : Int) : Int :=
  let d := t - u
  if d > maxDuration then maxDuration
  else if d < minDuration then minDuration
  else d

/-- `Result` from result.go: all timing information for one HTTP request.
The Go `error` field is modelled as an optional message string. -/
structure Result where
  Start : Int := 0
  ConnectDone : Int := 0
  FirstByte : Int := 0
  End : Int := 0
  DNSStart : Int := 0
  DNSDone : Int := 0
  ConnectStart : Int := 0
  TLSHandshakeStart : Int := 0
  TLSHandshakeDone : Int := 0
  Error : Option String := none
  deriving Repr, DecidableEq

/-- result.go `ConnectionDuration`: from `ConnectStart` when available
(httptrace), otherwise from `Start`; zero when a bound is unset. -/
def Result.ConnectionDuration (r : Result) : Int :=
  let start := if Time.isZero r.ConnectStart then r.Start else r.ConnectStart
  if Time.isZero r.ConnectDone || Time.isZero start then 0
  else timeSub r.ConnectDone start

/-- result.go `RequestDuration`: connection established to first byte. -/
def Result.RequestDuration (r : Result) : Int :=
  if Time.isZero r.FirstByte || Time.isZero r.ConnectDone then 0
  else timeSub r.FirstByte r.ConnectDone

/-- result.go `TotalDuration`: total time for the request. -/
def Result.TotalDuration (r : Result) : Int :=
  if Time.isZero r.End || Time.isZero r.Start then 0
  else timeSub r.End r.Start

/-- result.go `DNSDuration`: zero if DNS timing is not available. -/
def Result.DNSDuration (r : Result) : Int :=
  if Time.isZero r.DNSDone || Time.isZero r.DNSStart then 0
  else timeSub r.DNSDone r.DNSStart

/-- result.go `TLSDuration`: zero if TLS timing is not available. -/
def Result.TLSDuration (r : Result) : Int :=
  if Time.isZero r.TLSHandshakeDone || Time.isZero r.TLSHandshakeStart then 0
  else timeSub r.TLSHandshakeDone r.TLSHandshakeStart

/-- result.go `TTFB`: time to first byte from the start of the request. -/
def Result.TTFB (r : Result) : Int :=
  if Time.isZero r.FirstByte || Time.isZero r.Start then 0
  else timeSub r.FirstByte r.Start

/-- result.go `ServerProcessingDuration`: end of connection setup (TLS done,
else connect done) to the first response byte. -/
def Result.ServerProcessingDuration (r : Result) : Int :=
  let connEnd := if Time.isZero r.TLSHandshakeDone then r.ConnectDone
                 else r.TLSHandshakeDone
  if Time.isZero r.FirstByte || Time.isZero connEnd then 0
  else timeSub r.FirstByte connEnd

/-- result.go `DataTransferDuration`: first byte to the end. -/
def Result.DataTransferDuration (r : Result) : Int :=
  if Time.isZero r.End || Time.isZero r.FirstByte then 0
  else timeSub r.End r.FirstByte

/-- A duration lies in the `time.Duration` (`int64`) range. -/
def inRange (d : Int) : Prop := minDuration ≤ d ∧ d ≤ maxDuration

theorem timeSub_inRange (t u : Int) : inRange (timeSub t u) := by
  simp only [inRange, timeSub, maxDuration, minDuration]
  split_ifs <;> omega

theorem inRange_zero : inRange 0 := by
  simp only [inRange, maxDuration, minDuration]
  omega

theorem timeSub_nonneg {t u : Int} (h : u ≤ t) : 0 ≤ timeSub t u := by
  simp only [timeSub, maxDuration, minDuration]
  split_ifs <;> omega

/-- A sealed record with out-of-order stamps: the first response byte
apparently arrived before the connection finished (`FirstByte` earlier than
`ConnectDone`), as from clock skew. -/
def skewedResult : Result :=
  { Start := 1000, ConnectDone := 5000, FirstByte := 3000, End := 6000 }

/-- C1: the claim is false on the code.  For the sealed `skewedResult`
(`FirstByte` earlier than `ConnectDone`, the claim's own example) both
`RequestDuration` and `ServerProcessingDuration` return a negative duration
instead of zero: the duration methods only special-case unset (zero)
bounds, never negative spans. -/
theorem C1_counterexample :
    skewedResult.RequestDuration < 0 ∧
    skewedResult.ServerProcessingDuration < 0 := by decide

/-- C1 (amended): each duration method returns a value that is ≥ 0 provided
the timestamps it reads are consistently ordered; when the computed span
would be negative (out-of-order or skewed stamps) the method returns that
negative value — the code does not clamp negative spans to zero, it only
special-cases unset (zero) bounds. -/
theorem C1_amended (r : Result)
    (hdns : r.DNSStart ≤ r.DNSDone)
    (hconn : r.Start ≤ r.ConnectDone)
    (hconn2 : r.ConnectStart ≤ r.ConnectDone)
    (htls : r.TLSHandshakeStart ≤ r.TLSHandshakeDone)
    (httfb : r.Start ≤ r.FirstByte)
    (hreq : r.ConnectDone ≤ r.FirstByte)
    (hsp : r.TLSHandshakeDone ≤ r.FirstByte)
    (hdt : r.FirstByte ≤ r.End)
    (htot : r.Start ≤ r.End) :
    0 ≤ r.DNSDuration ∧ 0 ≤ r.ConnectionDuration ∧ 0 ≤ r.TLSDuration ∧
    0 ≤ r.TTFB ∧ 0 ≤ r.ServerProcessingDuration ∧
    0 ≤ r.DataTransferDuration ∧ 0 ≤ r.TotalDuration ∧
    0 ≤ r.RequestDuration := by
  refine ⟨?_, ?_, ?_, ?_, ?_, ?_, ?_, ?_⟩ <;>
    simp only [Result.DNSDuration, Result.ConnectionDuration,
      Result.TLSDuration, Result.TTFB, Result.ServerProcessingDuration,
      Result.DataTransferDuration, Result.TotalDuration,
      Result.RequestDuration, Time.isZero, timeSub, maxDuration, minDuration,
      Bool.or_eq_true, beq_iff_eq] <;>
    split_ifs <;> omega

/-- A sealed record whose stamps are consistently ordered. -/
def orderedResult : Result :=
  { Start := 1000, ConnectDone := 5000, FirstByte := 7000, End := 9000 }

/-- C1 (amended) at a concrete ordered record: all the ordering hypotheses
hold and every duration method is nonnegative there. -/
theorem C1_amended_witness :
    0 ≤ orderedResult.DNSDuration ∧ 0 ≤ orderedResult.ConnectionDuration ∧
    0 ≤ orderedResult.TLSDuration ∧ 0 ≤ orderedResult.TTFB ∧
    0 ≤ orderedResult.ServerProcessingDuration ∧
    0 ≤ orderedResult.DataTransferDuration ∧
    0 ≤ orderedResult.TotalDuration ∧ 0 ≤ orderedResult.RequestDuration :=
  C1_amended orderedResult (by decide) (by decide) (by decide) (by decide)
    (by decide) (by decide) (by decide) (by decide) (by decide)

/-- `n` milliseconds in nanoseconds. -/
def ms (n : Int) : Int := n * 1000000

/-- The record of the spec's literal-timestamp test case, based at `T`. -/
def timedResult (T : Int) : Result :=
  { Start := T, DNSStart := T + ms 10, DNSDone := T + ms 20,
    ConnectStart := T + ms 20, TLSHandshakeStart := T + ms 30,
    TLSHandshakeDone := T + ms 50, ConnectDone := T + ms 50,
    FirstByte := T + ms 100, End := T + ms 150 }

/-- C3: for the literal timestamps `start=T, dnsStart=T+10ms, dnsDone=T+20ms,
connectStart=T+20ms, tlsStart=T+30ms, tlsDone=T+50ms, connectDone=T+50ms,
firstByte=T+100ms, end=T+150ms` (any positive clock base `T`), the Result
reports dns=10ms, connection=30ms, tls=20ms, serverProcessing=50ms,
dataTransfer=50ms, ttfb=100ms, total=150ms. -/
theorem C3_literal_timestamps (T : Int) (hT : 0 < T) :
    (timedResult T).DNSDuration = ms 10 ∧
    (timedResult T).ConnectionDuration = ms 30 ∧
    (timedResult T).TLSDuration = ms 20 ∧
    (timedResult T).ServerProcessingDuration = ms 50 ∧
    (timedResult T).DataTransferDuration = ms 50 ∧
    (timedResult T).TTFB = ms 100 ∧
    (timedResult T).TotalDuration = ms 150 := by
  refine ⟨?_, ?_, ?_, ?_, ?_, ?_, ?_⟩ <;>
    simp only [timedResult, ms, Result.DNSDuration, Result.ConnectionDuration,
      Result.TLSDuration, Result.TTFB, Result.ServerProcessingDuration,
      Result.DataTransferDuration, Result.TotalDuration, Time.isZero,
      timeSub, maxDuration, minDuration, Bool.or_eq_true, beq_iff_eq] <;>
    split_ifs <;> omega

/-- C3 at the concrete clock base `T = 1`. -/
theorem C3_witness :
    (0 : Int) < 1 ∧
    ((timedResult 1).DNSDuration = ms 10 ∧
     (timedResult 1).ConnectionDuration = ms 30 ∧
     (timedResult 1).TLSDuration = ms 20 ∧
     (timedResult 1).ServerProcessingDuration = ms 50 ∧
     (timedResult 1).DataTransferDuration = ms 50 ∧
     (timedResult 1).TTFB = ms 100 ∧
     (timedResult 1).TotalDuration = ms 150) :=
  ⟨by decide, C3_literal_timestamps 1 (by decide)⟩

/-- C4: `ConnectionDuration` is `ConnectDone - ConnectStart` when
`ConnectStart` is set, else `ConnectDone - Start`; it is zero when
`ConnectDone`, or the chosen start bound, is the zero timestamp. -/
theorem C4_connection_duration (r : Result) :
    r.ConnectionDuration =
      if r.ConnectDone = 0 then 0
      else if r.ConnectStart ≠ 0 then timeSub r.ConnectDone r.ConnectStart
      else if r.Start ≠ 0 then timeSub r.ConnectDone r.Start
      else 0 := by
  rcases eq_or_ne r.ConnectStart 0 with h1 | h1 <;>
    rcases eq_or_ne r.ConnectDone 0 with h2 | h2 <;>
    rcases eq_or_ne r.Start 0 with h3 | h3 <;>
    simp [Result.ConnectionDuration, Time.isZero, h1, h2, h3]

/-- A record with only `Start` and `End` set. -/
def bareResult (s e : Int) : Result := { Start := s, End := e }

/-- C5: every duration method returns zero when either of its required
bounds is unset (zero): dns needs both DNS stamps, tls both TLS stamps,
ttfb/request/dataTransfer need `FirstByte` and their other bound,
connection needs `ConnectDone` and a nonzero chosen start,
serverProcessing needs `FirstByte` and a connection-setup end; and for a
record with only `Start` and `End` set every derived duration is 0 except
total. -/
theorem C5_unset_bounds (r : Result) (s e : Int) (hs : s ≠ 0) (he : e ≠ 0) :
    ((r.DNSStart = 0 ∨ r.DNSDone = 0) → r.DNSDuration = 0) ∧
    ((r.TLSHandshakeStart = 0 ∨ r.TLSHandshakeDone = 0) → r.TLSDuration = 0) ∧
    ((r.Start = 0 ∨ r.FirstByte = 0) → r.TTFB = 0) ∧
    ((r.ConnectDone = 0 ∨ r.FirstByte = 0) → r.RequestDuration = 0) ∧
    ((r.Start = 0 ∨ r.End = 0) → r.TotalDuration = 0) ∧
    ((r.FirstByte = 0 ∨ r.End = 0) → r.DataTransferDuration = 0) ∧
    ((r.ConnectDone = 0 ∨ (r.ConnectStart = 0 ∧ r.Start = 0)) →
      r.ConnectionDuration = 0) ∧
    ((r.FirstByte = 0 ∨ (r.TLSHandshakeDone = 0 ∧ r.ConnectDone = 0)) →
      r.ServerProcessingDuration = 0) ∧
    ((bareResult s e).DNSDuration = 0 ∧
     (bareResult s e).ConnectionDuration = 0 ∧
     (bareResult s e).TLSDuration = 0 ∧
     (bareResult s e).TTFB = 0 ∧
     (bareResult s e).RequestDuration = 0 ∧
     (bareResult s e).ServerProcessingDuration = 0 ∧
     (bareResult s e).DataTransferDuration = 0 ∧
     (bareResult s e).TotalDuration = timeSub e s) := by
  refine ⟨?_, ?_, ?_, ?_, ?_, ?_, ?_, ?_, ?_⟩ <;>
    [skip; skip; skip; skip; skip; skip; skip; skip;
     refine ⟨?_, ?_, ?_, ?_, ?_, ?_, ?_, ?_⟩] <;>
    simp only [bareResult, Result.DNSDuration, Result.ConnectionDuration,
      Result.TLSDuration, Result.TTFB, Result.ServerProcessingDuration,
      Result.DataTransferDuration, Result.TotalDuration,
      Result.RequestDuration, Time.isZero, Bool.or_eq_true, beq_iff_eq] <;>
    intros <;> split_ifs <;> simp_all

/-- result.go `errorString`: the error's message, "" for nil. -/
def errorString : Option String → String
  | none => ""
  | some msg => msg

/-- A JSON value as produced for the marshalled Result struct: a float64
number (exact, as a rational — every value here is an `int64` nanosecond
count divided by 10^6, far inside float64 range) or a string. -/
inductive JVal where
  | num (q : ℚ)
  | str (s : String)
  deriving Repr, DecidableEq

/-- `float64(d) / float64(time.Millisecond)`: the millisecond value of a
duration, exact as a rational. -/
def msOf (d : Int) : ℚ := (d : ℚ) / 1000000

/-- The largest finite float64, `(2^53 - 1) * 2^971`. -/
def maxFloat : ℚ := (2 ^ 53 - 1) * 2 ^ 971

/-- Whether a number of this magnitude encodes as a finite float64.
`encoding/json` fails exactly on non-finite float64 values (NaN/±Inf). -/
def floatIsFinite (q : ℚ) : Bool :=
  decide (-maxFloat ≤ q) && decide (q ≤ maxFloat)

/-- The field list of the anonymous struct marshalled by result.go
`MarshalJSON`, in struct order, with `omitempty` fields (dns_ms, tls_ms,
error) dropped when their value is the zero value of their type. -/
def Result.marshalFields (r : Result) : List (String × JVal) :=
  (if msOf r.DNSDuration = 0 then []
   else [("dns_ms", JVal.num (msOf r.DNSDuration))]) ++
  [("connect_ms", JVal.num (msOf r.ConnectionDuration))] ++
  (if msOf r.TLSDuration = 0 then []
   else [("tls_ms", JVal.num (msOf r.TLSDuration))]) ++
  [("ttfb_ms", JVal.num (msOf r.TTFB)),
   ("total_ms", JVal.num (msOf r.TotalDuration)),
   ("request_ms", JVal.num (msOf r.RequestDuration))] ++
  (if errorString r.Error = "" then []
   else [("error", JVal.str (errorString r.Error))])

/-- result.go `MarshalJSON`: the encoded field list, or the error
`encoding/json` raises when a number field is not a finite float64. -/
def Result.MarshalJSON (r : Result) : Except String (List (String × JVal)) :=
  let fields := r.marshalFields
  if fields.all (fun f =>
      match f.2 with
      | JVal.num q => floatIsFinite q
      | JVal.str _ => true) then
    Except.ok fields
  else
    Except.error ("json: unsupported value")

/-- Field lookup in a marshalled object, first match by key. -/
def findField (key : String) : List (String × JVal) → Option JVal
  | [] => none
  | f :: fs => if f.1 = key then some f.2 else findField key fs

theorem msOf_eq_zero {d : Int} : msOf d = 0 ↔ d = 0 := by
  simp [msOf, div_eq_zero_iff]

theorem dnsDuration_inRange (r : Result) : inRange r.DNSDuration := by
  simp only [Result.DNSDuration]
  split
  · exact inRange_zero
  · exact timeSub_inRange _ _

theorem connectionDuration_inRange (r : Result) :
    inRange r.ConnectionDuration := by
  simp only [Result.ConnectionDuration]
  split_ifs <;> first | exact inRange_zero | exact timeSub_inRange _ _

theorem tlsDuration_inRange (r : Result) : inRange r.TLSDuration := by
  simp only [Result.TLSDuration]
  split
  · exact inRange_zero
  · exact timeSub_inRange _ _

theorem ttfb_inRange (r : Result) : inRange r.TTFB := by
  simp only [Result.TTFB]
  split
  · exact inRange_zero
  · exact timeSub_inRange _ _

theorem totalDuration_inRange (r : Result) : inRange r.TotalDuration := by
  simp only [Result.TotalDuration]
  split
  · exact inRange_zero
  · exact timeSub_inRange _ _

theorem requestDuration_inRange (r : Result) : inRange r.RequestDuration := by
  simp only [Result.RequestDuration]
  split
  · exact inRange_zero
  · exact timeSub_inRange _ _

theorem floatIsFinite_msOf {d : Int} (h : inRange d) :
    floatIsFinite (msOf d) = true := by
  obtain ⟨h1, h2⟩ := h
  simp only [minDuration, maxDuration] at h1 h2
  have hc1 : (-9223372036854775808 : ℚ) ≤ (d : ℚ) := by exact_mod_cast h1
  have hc2 : ((d : ℚ)) ≤ 9223372036854775807 := by exact_mod_cast h2
  simp only [floatIsFinite, msOf, maxFloat, Bool.and_eq_true,
    decide_eq_true_eq]
  constructor
  · rw [le_div_iff₀ (by norm_num : (0 : ℚ) < 1000000)]
    have hstep : -(((2 : ℚ) ^ 53 - 1) * 2 ^ 971) * 1000000 ≤
        -9223372036854775808 := by norm_num
    linarith
  · rw [div_le_iff₀ (by norm_num : (0 : ℚ) < 1000000)]
    have hstep : (9223372036854775807 : ℚ) ≤
        ((2 : ℚ) ^ 53 - 1) * 2 ^ 971 * 1000000 := by norm_num
    linarith

/-- C10: `MarshalJSON` never returns an error, for every Result value: each
number field is an `int64`-range duration divided by 10^6, which is always
a finite float64, and the error field is a plain string — so the
json-failure branch is unreachable. -/
theorem C10_marshal_never_fails (r : Result) :
    ∃ fields, r.MarshalJSON = Except.ok fields := by
  refine ⟨r.marshalFields, ?_⟩
  have hall : (r.marshalFields).all
      (fun f => match f.2 with
        | JVal.num q => floatIsFinite q
        | JVal.str _ => true) = true := by
    simp only [Result.marshalFields]
    split_ifs <;>
      simp only [List.all_append, List.all_cons, List.all_nil,
        Bool.and_eq_true, Bool.and_true, and_true, true_and] <;>
      and_intros <;>
      first
        | rfl
        | exact floatIsFinite_msOf (dnsDuration_inRange r)
        | exact floatIsFinite_msOf (connectionDuration_inRange r)
        | exact floatIsFinite_msOf (tlsDuration_inRange r)
        | exact floatIsFinite_msOf (ttfb_inRange r)
        | exact floatIsFinite_msOf (totalDuration_inRange r)
        | exact floatIsFinite_msOf (requestDuration_inRange r)
  simp [Result.MarshalJSON, hall]

theorem marshal_dns_none (r : Result) (h : r.DNSDuration = 0) :
    findField ("dns_ms") r.marshalFields = none := by
  simp only [Result.marshalFields]
  rw [if_pos (msOf_eq_zero.mpr h)]
  split_ifs <;> simp [findField]

theorem marshal_dns_some (r : Result) (h : r.DNSDuration ≠ 0) :
    findField ("dns_ms") r.marshalFields =
      some (JVal.num (msOf r.DNSDuration)) := by
  simp only [Result.marshalFields]
  rw [if_neg (fun hc => h (msOf_eq_zero.mp hc))]
  simp [findField]

theorem marshal_tls_none (r : Result) (h : r.TLSDuration = 0) :
    findField ("tls_ms") r.marshalFields = none := by
  simp only [Result.marshalFields]
  rw [if_pos (msOf_eq_zero.mpr h)]
  split_ifs <;> simp [findField]

theorem marshal_tls_some (r : Result) (h : r.TLSDuration ≠ 0) :
    findField ("tls_ms") r.marshalFields =
      some (JVal.num (msOf r.TLSDuration)) := by
  simp only [Result.marshalFields]
  rw [if_neg (fun hc => h (msOf_eq_zero.mp hc))]
  split_ifs <;> simp [findField]

theorem marshal_always (r : Result) :
    findField ("connect_ms") r.marshalFields =
      some (JVal.num (msOf r.ConnectionDuration)) ∧
    findField ("ttfb_ms") r.marshalFields =
      some (JVal.num (msOf r.TTFB)) ∧
    findField ("total_ms") r.marshalFields =
      some (JVal.num (msOf r.TotalDuration)) ∧
    findField ("request_ms") r.marshalFields =
      some (JVal.num (msOf r.RequestDuration)) := by
  refine ⟨?_, ?_, ?_, ?_⟩ <;>
    simp only [Result.marshalFields] <;>
    split_ifs <;> simp [findField]

theorem marshal_error_absent (r : Result) (h : errorString r.Error = "") :
    findField ("error") r.marshalFields = none := by
  simp only [Result.marshalFields]
  rw [if_pos h]
  split_ifs <;> simp [findField]

theorem marshal_error_present (r : Result) (v : JVal)
    (hv : findField ("error") r.marshalFields = some v) :
    ∃ msg, r.Error = some msg ∧ v = JVal.str msg := by
  rcases hE : r.Error with _ | msg
  · rw [marshal_error_absent r (by simp [hE, errorString])] at hv
    exact Option.noConfusion hv
  · by_cases hm : msg = ""
    · rw [marshal_error_absent r (by simp [hE, hm, errorString])] at hv
      exact Option.noConfusion hv
    · refine ⟨msg, rfl, ?_⟩
      have hsome : findField ("error") r.marshalFields =
          some (JVal.str msg) := by
        simp only [Result.marshalFields, hE, errorString]
        rw [if_neg hm]
        split_ifs <;> simp [findField]
      rw [hsome] at hv
      exact (Option.some.inj hv).symm

/-- C8: the structured (JSON) form carries millisecond fields dns_ms,
connect_ms, tls_ms, ttfb_ms, total_ms, request_ms; dns_ms and tls_ms are
omitted exactly when the corresponding duration is zero, and an error field
is present only when an error was recorded (and then carries its message). -/
theorem C8_json_structure (r : Result) :
    (r.DNSDuration = 0 → findField ("dns_ms") r.marshalFields = none) ∧
    (r.DNSDuration ≠ 0 →
      findField ("dns_ms") r.marshalFields =
        some (JVal.num (msOf r.DNSDuration))) ∧
    (r.TLSDuration = 0 → findField ("tls_ms") r.marshalFields = none) ∧
    (r.TLSDuration ≠ 0 →
      findField ("tls_ms") r.marshalFields =
        some (JVal.num (msOf r.TLSDuration))) ∧
    findField ("connect_ms") r.marshalFields =
      some (JVal.num (msOf r.ConnectionDuration)) ∧
    findField ("ttfb_ms") r.marshalFields = some (JVal.num (msOf r.TTFB)) ∧
    findField ("total_ms") r.marshalFields =
      some (JVal.num (msOf r.TotalDuration)) ∧
    findField ("request_ms") r.marshalFields =
      some (JVal.num (msOf r.RequestDuration)) ∧
    (r.Error = none → findField ("error") r.marshalFields = none) ∧
    (∀ v, findField ("error") r.marshalFields = some v →
      ∃ msg, r.Error = some msg ∧ v = JVal.str msg) :=
  ⟨marshal_dns_none r, marshal_dns_some r, marshal_tls_none r,
   marshal_tls_some r, (marshal_always r).1, (marshal_always r).2.1,
   (marshal_always r).2.2.1, (marshal_always r).2.2.2,
   fun h => marshal_error_absent r (by simp [h, errorString]),
   marshal_error_present r⟩

/-- C8 at a concrete record with no DNS/TLS stamps and no error: dns_ms is
omitted, connect_ms is present with its millisecond value, and no error
field appears. -/
theorem C8_witness :
    orderedResult.DNSDuration = 0 ∧
    findField ("dns_ms") orderedResult.marshalFields = none ∧
    findField ("connect_ms") orderedResult.marshalFields =
      some (JVal.num (msOf orderedResult.ConnectionDuration)) ∧
    findField ("error") orderedResult.marshalFields = none := by
  have h := C8_json_structure orderedResult
  exact ⟨by decide, h.1 (by decide), h.2.2.2.2.1, h.2.2.2.2.2.2.2.2.1 rfl⟩

/-- The times at which the engine's httptrace callbacks fired for one
request, `0` when a callback never fired.  Each callback registered by
ferret.go `RoundTrip` stamps the matching `Result` field with `clock()` at
the moment it is invoked. -/
structure TraceStamps where
  dnsStart : Int := 0
  dnsDone : Int := 0
  connectStart : Int := 0
  connectDone : Int := 0
  tlsStart : Int := 0
  tlsDone : Int := 0
  firstByte : Int := 0
  deriving Repr, DecidableEq

/-- An `*http.Request` as ferret.go observes it: the `resultKey` binding of
its context (`none` when absent).  A `none` at an `Option Request` use site
stands for a nil request pointer. -/
structure Request where
  res : Option Result := none
  deriving Repr, DecidableEq

/-- An `*http.Response` as ferret.go observes it: its `Request` field, plus
an opaque payload (the status code stands in for everything else). -/
structure Response where
  status : Nat := 0
  request : Option Request := none
  deriving Repr, DecidableEq

/-- What one call to the wrapped transport `f.next.RoundTrip` did: the
response and error it returned and the trace callbacks it fired. -/
structure EngineOutcome where
  resp : Option Response := none
  err : Option String := none
  stamps : TraceStamps := {}
  deriving Repr, DecidableEq

/-- The observable outcome of ferret.go `RoundTrip`: the returned response
and error, and the sealed `Result` the call created. -/
structure RTOutput where
  resp : Option Response
  err : Option String
  record : Result
  deriving Repr, DecidableEq

/-- ferret.go `RoundTrip`, shallowly: `startT` and `endT` are the two
`f.clock()` readings taken before and after delegating to the wrapped
transport, whose behaviour is given as `engine`.  The record starts with
`Start` and the callback stamps; on return `End` and `Error` are sealed,
`FirstByte` falls back to `End` when a response was obtained but the
first-byte callback never fired, and the sealed record is re-bound onto the
response's request context when both are present. -/
def RoundTrip (startT endT : Int) (engine : EngineOutcome) : RTOutput :=
  let traced : Result :=
    { Start := startT, DNSStart := engine.stamps.dnsStart,
      DNSDone := engine.stamps.dnsDone,
      ConnectStart := engine.stamps.connectStart,
      ConnectDone := engine.stamps.connectDone,
      TLSHandshakeStart := engine.stamps.tlsStart,
      TLSHandshakeDone := engine.stamps.tlsDone,
      FirstByte := engine.stamps.firstByte }
  let sealed1 : Result := { traced with End := endT, Error := engine.err }
  let sealed : Result :=
    if engine.resp.isSome && Time.isZero sealed1.FirstByte then
      { sealed1 with FirstByte := endT }
    else sealed1
  let respOut : Option Response :=
    match engine.resp with
    | none => none
    | some resp =>
      match resp.request with
      | none => some resp
      | some q => some { resp with request := some { q with res := some sealed } }
  { resp := respOut, err := engine.err, record := sealed }

/-- ferret.go `GetResult` (via `resultFromContext`): the record bound in the
request's context, `nil` for a nil request or an absent binding. -/
def GetResult : Option Request → Option Result
  | none => none
  | some q => q.res

/-- The sealed record `RoundTrip` produces, spelled out: the callback
stamps plus `Start`/`End`/`Error`, with the `FirstByte` fallback applied. -/
theorem roundTrip_record (startT endT : Int) (engine : EngineOutcome) :
    (RoundTrip startT endT engine).record =
      if engine.resp.isSome && Time.isZero engine.stamps.firstByte then
        { Start := startT, DNSStart := engine.stamps.dnsStart,
          DNSDone := engine.stamps.dnsDone,
          ConnectStart := engine.stamps.connectStart,
          ConnectDone := engine.stamps.connectDone,
          TLSHandshakeStart := engine.stamps.tlsStart,
          TLSHandshakeDone := engine.stamps.tlsDone,
          FirstByte := endT, End := endT, Error := engine.err }
      else
        { Start := startT, DNSStart := engine.stamps.dnsStart,
          DNSDone := engine.stamps.dnsDone,
          ConnectStart := engine.stamps.connectStart,
          ConnectDone := engine.stamps.connectDone,
          TLSHandshakeStart := engine.stamps.tlsStart,
          TLSHandshakeDone := engine.stamps.tlsDone,
          FirstByte := engine.stamps.firstByte, End := endT,
          Error := engine.err } := rfl

/-- The response `RoundTrip` returns, spelled out: the engine's response,
with the sealed record bound into its request context when it carries a
request handle. -/
theorem roundTrip_resp (startT endT : Int) (engine : EngineOutcome) :
    (RoundTrip startT endT engine).resp =
      match engine.resp with
      | none => none
      | some resp =>
        match resp.request with
        | none => some resp
        | some q =>
          some { resp with
                 request :=
                   some { q with
                          res := some (RoundTrip startT endT engine).record } } :=
  rfl

/-- C2: when the wrapped transport produced a response and the first-byte
callback never stamped `FirstByte` (and the clock never reads the zero
time), the sealed record has `FirstByte = End`; in every response-yielding
case `FirstByte` ends up non-zero, and in the fallback case the durations
derived from `FirstByte` degrade gracefully: `DataTransferDuration` is 0
and `TTFB` coincides with `TotalDuration`. -/
theorem C2_firstbyte_fallback (startT endT : Int) (engine : EngineOutcome)
    (hresp : engine.resp.isSome = true) (hclock : endT ≠ 0) :
    (RoundTrip startT endT engine).record.FirstByte ≠ 0 ∧
    (engine.stamps.firstByte = 0 →
      (RoundTrip startT endT engine).record.FirstByte = endT ∧
      (RoundTrip startT endT engine).record.End = endT ∧
      (RoundTrip startT endT engine).record.DataTransferDuration = 0 ∧
      (RoundTrip startT endT engine).record.TTFB =
        (RoundTrip startT endT engine).record.TotalDuration) := by
  have hFB : (RoundTrip startT endT engine).record.FirstByte =
      (if engine.stamps.firstByte = 0 then endT
       else engine.stamps.firstByte) := by
    rw [roundTrip_record]
    rcases eq_or_ne engine.stamps.firstByte 0 with h0 | h0 <;>
      simp [hresp, h0, Time.isZero]
  have hEnd : (RoundTrip startT endT engine).record.End = endT := by
    rw [roundTrip_record]
    split_ifs <;> rfl
  constructor
  · rw [hFB]
    split_ifs with h0
    · exact hclock
    · exact h0
  · intro h0
    have hFB2 : (RoundTrip startT endT engine).record.FirstByte = endT := by
      rw [hFB, if_pos h0]
    refine ⟨hFB2, hEnd, ?_, ?_⟩
    · simp only [Result.DataTransferDuration, hFB2, hEnd, Time.isZero,
        timeSub, maxDuration, minDuration, Bool.or_eq_true, beq_iff_eq]
      split_ifs <;> omega
    · simp only [Result.TTFB, Result.TotalDuration, hFB2, hEnd]

/-- An engine outcome: a plain 200 response carrying its request, no error,
no callbacks fired. -/
def engineOk : EngineOutcome :=
  { resp := some { status := 200, request := some {} }, err := none,
    stamps := {} }

/-- C2 at concrete inputs: `engineOk` yields a response, its first-byte
stamp is unset, the clock reads are non-zero, and the sealed record shows
the `FirstByte = End` fallback with graceful durations. -/
theorem C2_witness :
    engineOk.resp.isSome = true ∧ (9 : Int) ≠ 0 ∧
    ((RoundTrip 5 9 engineOk).record.FirstByte ≠ 0 ∧
     (engineOk.stamps.firstByte = 0 →
       (RoundTrip 5 9 engineOk).record.FirstByte = 9 ∧
       (RoundTrip 5 9 engineOk).record.End = 9 ∧
       (RoundTrip 5 9 engineOk).record.DataTransferDuration = 0 ∧
       (RoundTrip 5 9 engineOk).record.TTFB =
         (RoundTrip 5 9 engineOk).record.TotalDuration)) :=
  ⟨by decide, by decide, C2_firstbyte_fallback 5 9 engineOk (by decide) (by decide)⟩

/-- C6: `RoundTrip` returns the wrapped transport's error unchanged and a
response exactly when the transport produced one (same payload, here the
status code); and on every return path the sealed record carries
`End = clock()`, the transport's error, and the `Start` stamp taken at
entry. -/
theorem C6_transparent (startT endT : Int) (engine : EngineOutcome) :
    (RoundTrip startT endT engine).err = engine.err ∧
    (RoundTrip startT endT engine).resp.isSome = engine.resp.isSome ∧
    (∀ resp, engine.resp = some resp →
      ∃ resp2, (RoundTrip startT endT engine).resp = some resp2 ∧
        resp2.status = resp.status) ∧
    (RoundTrip startT endT engine).record.End = endT ∧
    (RoundTrip startT endT engine).record.Error = engine.err ∧
    (RoundTrip startT endT engine).record.Start = startT := by
  refine ⟨rfl, ?_, ?_, ?_, ?_, ?_⟩
  · rw [roundTrip_resp]
    rcases hR : engine.resp with _ | resp
    · simp [hR]
    · rcases hq : resp.request with _ | q <;> simp [hR, hq]
  · intro resp hR
    rw [roundTrip_resp, hR]
    rcases hq : resp.request with _ | q <;> simp only [hq]
    · exact ⟨resp, rfl, rfl⟩
    · exact ⟨_, rfl, rfl⟩
  · rw [roundTrip_record]
    split_ifs <;> rfl
  · rw [roundTrip_record]
    split_ifs <;> rfl
  · rw [roundTrip_record]
    split_ifs <;> rfl

/-- A failing engine outcome: no response, a connection-refused error, only
the connect-start callback fired. -/
def engineFail : EngineOutcome :=
  { resp := none, err := some ("connection refused"),
    stamps := { connectStart := 7 } }

/-- C6 at concrete inputs: on the failing outcome the error comes back
verbatim, no response is fabricated, and the partial record still carries
`Start`, `End` and the error. -/
theorem C6_witness :
    (RoundTrip 5 9 engineFail).err = engineFail.err ∧
    (RoundTrip 5 9 engineFail).resp.isSome = engineFail.resp.isSome ∧
    (∀ resp, engineFail.resp = some resp →
      ∃ resp2, (RoundTrip 5 9 engineFail).resp = some resp2 ∧
        resp2.status = resp.status) ∧
    (RoundTrip 5 9 engineFail).record.End = 9 ∧
    (RoundTrip 5 9 engineFail).record.Error = engineFail.err ∧
    (RoundTrip 5 9 engineFail).record.Start = 5 :=
  C6_transparent 5 9 engineFail

/-- C9: when the transport's response carries a request handle, `RoundTrip`
returns that response with the sealed record bound into the request's
context, so `GetResult` on the response's request recovers exactly the
sealed record; and `GetResult` is total, returning `none` (never a panic)
for a nil request or for any request with no associated record. -/
theorem C9_rebind_lookup (startT endT : Int) (engine : EngineOutcome) :
    (∀ resp q, engine.resp = some resp → resp.request = some q →
      ∃ q2, (RoundTrip startT endT engine).resp =
          some { resp with request := some q2 } ∧
        GetResult (some q2) = some (RoundTrip startT endT engine).record) ∧
    GetResult none = none ∧
    (∀ q, q.res = none → GetResult (some q) = none) := by
  refine ⟨?_, rfl, fun q hq => by simp [GetResult, hq]⟩
  intro resp q hR hq
  refine ⟨{ q with res := some (RoundTrip startT endT engine).record }, ?_, rfl⟩
  rw [roundTrip_resp, hR]
  simp only [hq]

/-- C9 at concrete inputs: `engineOk`'s response carries a request handle;
after `RoundTrip` the response's request resolves via `GetResult` to the
sealed record, and lookups with no record give `none`. -/
theorem C9_witness :
    (∃ q2, (RoundTrip 5 9 engineOk).resp =
        some { status := 200, request := some q2 } ∧
      GetResult (some q2) = some (RoundTrip 5 9 engineOk).record) ∧
    GetResult none = none ∧
    GetResult (some {}) = none := by
  have h := C9_rebind_lookup 5 9 engineOk
  refine ⟨?_, h.2.1, h.2.2 {} rfl⟩
  exact h.1 { status := 200, request := some {} } {} rfl rfl

/-- Go `fmtFrac` (time.go), as a function: processes `prec` digits of `v`
from the least significant upward, printing a digit once a nonzero one has
been seen (so trailing zeros are dropped), and prefixes a decimal point when
anything was printed.  Returns the fraction text, the remaining integer
part, and the final print flag. -/
def fmtFracCore : Nat → Nat → Bool → String × Nat × Bool
  | 0, v, print => ("", v, print)
  | p + 1, v, print =>
    let digit := v % 10
    let print1 := print || decide (digit ≠ 0)
    let rest := fmtFracCore p (v / 10) print1
    (rest.1 ++ (if print1 then String.singleton (Nat.digitChar digit) else ("")),
     rest.2.1, rest.2.2)

/-- Go `fmtFrac`: the fractional part (with leading dot, empty when all
`prec` digits are zero) and the remaining integer value. -/
def fmtFrac (v : Nat) (prec : Nat) : String × Nat :=
  let r := fmtFracCore prec v false
  ((if r.2.2 then ("." ++ r.1) else r.1), r.2.1)

/-- Go `time.Duration.String` (time.go): "0s" for zero, `ns`/`µs`/`ms` with
up to full precision below one second, else `h`/`m`/`s` components, with a
leading minus for negative durations. -/
def goDurationString (d : Int) : String :=
  let u : Nat := d.natAbs
  let core :=
    if u < 1000000000 then
      if u = 0 then ("0s")
      else if u < 1000 then
        toString u ++ "ns"
      else if u < 1000000 then
        let f := fmtFrac u 3
        toString f.2 ++ f.1 ++ "µs"
      else
        let f := fmtFrac u 6
        toString f.2 ++ f.1 ++ "ms"
    else
      let f := fmtFrac u 9
      let secs := toString (f.2 % 60) ++ f.1 ++ "s"
      let u2 := f.2 / 60
      if u2 = 0 then secs
      else
        let mins := toString (u2 % 60) ++ "m" ++ secs
        let u3 := u2 / 60
        if u3 = 0 then mins else toString u3 ++ "h" ++ mins
  if d < 0 then ("-" ++ core) else core

/-- result.go `String`: `Error: <message>` when an error was recorded, else
`total=` followed by ` dns=`, ` connect=`, ` tls=`, ` ttfb=` for the phases
whose duration is positive. -/
def Result.String (r : Result) : String :=
  match r.Error with
  | some msg => "Error: " ++ msg
  | none =>
    let s0 := "total=" ++ goDurationString r.TotalDuration
    let s1 := if 0 < r.DNSDuration
              then s0 ++ " dns=" ++ goDurationString r.DNSDuration else s0
    let s2 := if 0 < r.ConnectionDuration
              then s1 ++ " connect=" ++ goDurationString r.ConnectionDuration
              else s1
    let s3 := if 0 < r.TLSDuration
              then s2 ++ " tls=" ++ goDurationString r.TLSDuration else s2
    if 0 < r.TTFB then s3 ++ " ttfb=" ++ goDurationString r.TTFB else s3

/-- C7: with a recorded error, `String` renders exactly `Error: <message>`
with no durations; without one, it renders `total=` first and appends
` dns=`, ` connect=`, ` tls=`, ` ttfb=` (in that order) exactly for the
phases whose duration is positive — so only for nonzero durations. -/
theorem C7_string_rendering (r : Result) :
    (∀ msg, r.Error = some msg → r.String = "Error: " ++ msg) ∧
    (r.Error = none →
      r.String =
        "total=" ++ goDurationString r.TotalDuration ++
        (if 0 < r.DNSDuration
         then (" dns=" ++ goDurationString r.DNSDuration) else ("")) ++
        (if 0 < r.ConnectionDuration
         then (" connect=" ++ goDurationString r.ConnectionDuration)
         else ("")) ++
        (if 0 < r.TLSDuration
         then (" tls=" ++ goDurationString r.TLSDuration) else ("")) ++
        (if 0 < r.TTFB
         then (" ttfb=" ++ goDurationString r.TTFB) else (""))) := by
  constructor
  · intro msg hmsg
    simp only [Result.String, hmsg]
  · intro hnone
    simp only [Result.String, hnone]
    split_ifs <;>
      simp only [String.append_assoc, String.append_empty]

/-- A record holding only an error. -/
def erroredResult : Result := { Error := some ("boom") }

/-- C7 at an error-carrying record and at the literal-timestamp record. -/
theorem C7_witness :
    erroredResult.String = "Error: boom" ∧
    (timedResult 1000000000).String =
      "total=150ms dns=10ms connect=30ms tls=20ms ttfb=100ms" := by
  constructor
  · exact (C7_string_rendering erroredResult).1 ("boom") rfl
  · rw [(C7_string_rendering (timedResult 1000000000)).2 rfl]
    decide

/-- C5 at a record missing DNS stamps and at a bare start/end record. -/
theorem C5_witness :
    ((1000 : Int) ≠ 0) ∧ ((2000 : Int) ≠ 0) ∧
    orderedResult.DNSDuration = 0 ∧
    (bareResult 1000 2000).TTFB = 0 ∧
    (bareResult 1000 2000).TotalDuration = timeSub 2000 1000 := by
  have h := C5_unset_bounds orderedResult 1000 2000 (by decide) (by decide)
  exact ⟨by decide, by decide, h.1 (Or.inl (by decide)),
    (h.2.2.2.2.2.2.2.2).2.2.2.1, (h.2.2.2.2.2.2.2.2).2.2.2.2.2.2.2⟩

end Ferret
